import Mathlib

/-!
Shallow embedding of the fxa-client OAuth/command core
(`components/fxa-client/src/lib.rs`) and of the push crypto key codec
(`components/push/crypto/src/lib.rs`).

Modelling conventions:
* Rust `HashMap` fields are modelled as association lists (`List (String × α)`)
  with first-match lookup; `insert` replaces, `remove` deletes the key.
* Network calls and cryptographic primitives (SHA-256, base64, ECDH, JWE
  decryption, the HTTP client) are black boxes per the specification; they are
  passed to each operation as explicit parameters, so the result of an operation is
  a pure function of its inputs and of the answers of the black boxes.
* Random values produced inside an operation (`state`, `code_verifier`, the
  ephemeral scoped-keys keypair) are modelled as extra inputs.
* Machine integers (`u64`, lengths) are `Nat`; byte strings are `List Nat`.
  The `as u8` casts in the key codec are modelled with `% 256`.
-/

set_option maxHeartbeats 1000000

namespace FxA

/-- First-match lookup in an association list (Rust `HashMap::get`). -/
def alistLookup {α : Type} : List (String × α) → String → Option α
  | [], _ => none
  | p :: t, k => if p.1 = k then some p.2 else alistLookup t k

/-- Delete every binding of a key (the effect of Rust `HashMap::remove` on the map). -/
def alistRemove {α : Type} : List (String × α) → String → List (String × α)
  | [], _ => []
  | p :: t, k => if p.1 = k then alistRemove t k else p :: alistRemove t k

/-- Replace the binding of a key (the effect of Rust `HashMap::insert` on the map). -/
def alistInsert {α : Type} (l : List (String × α)) (k : String) (v : α) :
    List (String × α) :=
  (k, v) :: alistRemove l k

theorem alistLookup_remove_self {α : Type} (l : List (String × α)) (k : String) :
    alistLookup (alistRemove l k) k = none := by
  induction l with
  | nil => rfl
  | cons p t ih =>
      by_cases h : p.1 = k <;> simp [alistRemove, alistLookup, h, ih]

theorem alistRemove_of_lookup_none {α : Type} (l : List (String × α)) (k : String)
    (h : alistLookup l k = none) : alistRemove l k = l := by
  induction l with
  | nil => rfl
  | cons p t ih =>
      by_cases hpk : p.1 = k
      · simp [alistLookup, hpk] at h
      · simp [alistLookup, hpk] at h
        simp [alistRemove, hpk, ih h]

theorem alistLookup_insert_self {α : Type} (l : List (String × α)) (k : String)
    (v : α) : alistLookup (alistInsert l k v) k = some v := by
  simp [alistInsert, alistLookup]

/-- The space character (U+0020); `scope.contains(" ")` in the Rust
source searches for exactly this one character. -/
def spaceChar : Char := Char.ofNat 32

/-- `scope.contains(" ")` (lib.rs:227): substring search for the one-character
pattern `" "`, i.e. membership of the space character among the characters
of the string. -/
def containsSpace (s : String) : Bool :=
  s.data.contains spaceChar

/-- Error kinds of the fxa-client (`errors.rs` is summarised by the spec §7;
only the variants the modelled operations produce are included). -/
inductive FxaError
  | MultipleScopesRequested
  | NoCachedToken (scope : String)
  | NoRefreshToken
  | UnknownOAuthState
  | OriginMismatch
  | TokenWithoutKeys
  | UnrecoverableServerError (reason : String)
  | RefreshTokenNotPresent
  | UnknownCommand (name : String)
  | IllegalState (reason : String)
  | Network (reason : String)
  deriving DecidableEq, Repr

/-- `ScopedKey` record (lib.rs:700-707). -/
structure ScopedKey where
  kty : String
  scope : String
  k : String
  kid : String
  deriving DecidableEq, Repr

/-- `RefreshToken` (lib.rs:715-719); the `HashSet<String>` of scopes is
modelled as a list, used only through membership. -/
structure RefreshToken where
  token : String
  scopes : List String
  deriving DecidableEq, Repr

/-- `AccessTokenInfo` (lib.rs:726-732). -/
structure AccessTokenInfo where
  scope : String
  token : String
  key : Option ScopedKey
  expires_at : Nat
  deriving DecidableEq, Repr

/-- `ScopedKeysFlow` (scoped_keys.rs): an ephemeral ECDH keypair. Only its
public JWK JSON is observed by the modelled code (`generate_keys_jwk`);
`decrypt_keys_jwe` is a black box taken as a parameter where needed. -/
structure ScopedKeysFlow where
  jwk_json : String
  deriving DecidableEq, Repr

/-- `OAuthFlow` (lib.rs:721-724). -/
structure OAuthFlow where
  scoped_keys_flow : Option ScopedKeysFlow
  code_verifier : String
  deriving DecidableEq, Repr

/-- `Config` (config.rs): the parts the modelled operations read. Derived
endpoints are computed from the content host. -/
structure Config where
  content_host : String
  client_id : String
  redirect_uri : String
  deriving DecidableEq, Repr

/-- Persisted account state `StateV2` (lib.rs:67-78), without the
`browserid`-feature field. -/
structure StateV2 where
  config : Config
  refresh_token : Option RefreshToken
  scoped_keys : List (String × ScopedKey)
  last_handled_command : Option Nat
  commands_data : List (String × String)
  deriving DecidableEq, Repr

/-- `FirefoxAccount` (lib.rs:107-113), without the profile cache and persist
callback object; persist-callback invocation is reported as a `Bool` in the
result of each operation. -/
structure FirefoxAccount where
  state : StateV2
  access_token_cache : List (String × AccessTokenInfo)
  flow_store : List (String × OAuthFlow)
  deriving DecidableEq, Repr

/-- `FirefoxAccount::with_config` (lib.rs:147-157). -/
def FirefoxAccount.with_config (config : Config) : FirefoxAccount :=
  { state :=
      { config := config
        refresh_token := none
        scoped_keys := []
        last_handled_command := none
        commands_data := [] }
    access_token_cache := []
    flow_store := [] }

/-- `OAUTH_MIN_TIME_LEFT` (lib.rs:55). -/
def OAUTH_MIN_TIME_LEFT : Nat := 60

/-- Shape of the `/oauth/token` response (http_client.rs, spec §6). -/
structure OauthTokenResponse where
  access_token : String
  refresh_token : Option String
  scope : String
  expires_in : Nat
  keys_jwe : Option String
  deriving DecidableEq, Repr

/-- The non-cached tail of `get_access_token` (lib.rs:235-269): mint a fresh
access token through the refresh token. The network exchange
(`oauth_token_with_refresh_token`) is the black-box parameter `exch`. -/
def mint_access_token (acct : FirefoxAccount) (scope : String) (now_secs : Nat)
    (exch : Except FxaError OauthTokenResponse) :
    FirefoxAccount × Except FxaError AccessTokenInfo :=
  match acct.state.refresh_token with
  | some refresh_token =>
      if refresh_token.scopes.contains scope then
        match exch with
        | .error e => (acct, .error e)
        | .ok resp =>
            let expires_at := now_secs + resp.expires_in
            let token_info : AccessTokenInfo :=
              { scope := resp.scope
                token := resp.access_token
                key := alistLookup acct.state.scoped_keys scope
                expires_at := expires_at }
            ({ acct with
                access_token_cache :=
                  alistInsert acct.access_token_cache scope token_info },
             .ok token_info)
      else (acct, .error (.NoCachedToken scope))
  | none => (acct, .error (.NoCachedToken scope))

/-- `FirefoxAccount::get_access_token` (lib.rs:226-270). -/
def get_access_token (acct : FirefoxAccount) (scope : String) (now_secs : Nat)
    (exch : Except FxaError OauthTokenResponse) :
    FirefoxAccount × Except FxaError AccessTokenInfo :=
  if containsSpace scope then (acct, .error .MultipleScopesRequested)
  else
    match alistLookup acct.access_token_cache scope with
    | some oauth_info =>
        if oauth_info.expires_at > now_secs + OAUTH_MIN_TIME_LEFT then
          (acct, .ok oauth_info)
        else mint_access_token acct scope now_secs exch
    | none => mint_access_token acct scope now_secs exch

/-- A URL as the modelled code observes it (`url::Url`): host, path, ordered
query pairs, optional fragment. `Url::to_string` is not modelled; theorems
speak about the structured URL. -/
structure Url where
  host : String
  path : String
  query : List (String × String)
  fragment : Option String
  deriving DecidableEq, Repr

/-- `url.query_pairs_mut().append_pair(k, v)`. -/
def Url.append_pair (u : Url) (k v : String) : Url :=
  { u with query := u.query ++ [(k, v)] }

/-- First-match query-parameter lookup, for stating properties of built URLs. -/
def Url.queryLookup (u : Url) (k : String) : Option String :=
  alistLookup u.query k

/-- `Config::content_url_path` (config.rs): a URL on the content host. -/
def Config.content_url_path (c : Config) (path : String) : Url :=
  { host := c.content_host, path := path, query := [], fragment := none }

/-- `Config::authorization_endpoint` (config.rs): `/authorization` on the
content host. -/
def Config.authorization_endpoint (c : Config) : Url :=
  c.content_url_path "/authorization"

/-- Black-box cryptographic primitives used by `oauth_flow` (spec §1: assumed
available as black boxes): the `ring` SHA-256 digest and url-safe no-padding
base64 encoding. -/
structure CryptoPrims where
  sha256 : List Nat → List Nat
  b64url : List Nat → String

/-- `str::as_bytes`, modelled on code points (faithful for ASCII inputs such
as the base64 `code_verifier` and JWK JSON the code feeds it). -/
def strBytes (s : String) : List Nat :=
  s.data.map Char.toNat

/-- `FirefoxAccount::oauth_flow` (lib.rs:304-335). The random `state`,
`code_verifier` and (when `wants_keys`) the ephemeral scoped-keys keypair are
inputs; the returned URL is kept structured. -/
def oauth_flow (prims : CryptoPrims) (acct : FirefoxAccount) (url : Url)
    (scopes : List String) (wants_keys : Bool)
    (state_param code_verifier : String) (skf : ScopedKeysFlow) :
    FirefoxAccount × Url :=
  let code_challenge := prims.b64url (prims.sha256 (strBytes code_verifier))
  let url := (((((((url.append_pair "client_id" acct.state.config.client_id
    ).append_pair "redirect_uri" acct.state.config.redirect_uri
    ).append_pair "scope" (String.intercalate " " scopes)
    ).append_pair "state" state_param
    ).append_pair "code_challenge_method" "S256"
    ).append_pair "code_challenge" code_challenge
    ).append_pair "access_type" "offline")
  let withKeys :=
    match wants_keys with
    | true =>
        (url.append_pair "keys_jwk" (prims.b64url (strBytes skf.jwk_json)),
         some skf)
    | false => (url, none)
  let acct :=
    { acct with
        flow_store :=
          alistInsert acct.flow_store state_param
            { scoped_keys_flow := withKeys.2, code_verifier := code_verifier } }
  (acct, withKeys.1)

/-- The scope list `begin_oauth_flow` passes on (lib.rs:287-300): with a
refresh token, the requested scopes followed by the held ones, deduplicated
(the `HashSet` round-trip is modelled as `List.dedup`; its iteration order is
unspecified in Rust, only the underlying set is meaningful). -/
def effective_scopes (refresh_token : Option RefreshToken)
    (scopes : List String) : List String :=
  match refresh_token with
  | some rt => (scopes ++ rt.scopes).dedup
  | none => scopes

/-- `FirefoxAccount::begin_oauth_flow` (lib.rs:282-302). -/
def begin_oauth_flow (prims : CryptoPrims) (acct : FirefoxAccount)
    (scopes : List String) (wants_keys : Bool)
    (state_param code_verifier : String) (skf : ScopedKeysFlow) :
    FirefoxAccount × Url :=
  let url := ((acct.state.config.authorization_endpoint
    ).append_pair "action" "email").append_pair "response_type" "code"
  oauth_flow prims acct url (effective_scopes acct.state.refresh_token scopes)
    wants_keys state_param code_verifier skf

/-- `FirefoxAccount::begin_pairing_flow` (lib.rs:272-280). The pairing URL is
taken already parsed (`Url::parse` is the black-box `url` crate). -/
def begin_pairing_flow (prims : CryptoPrims) (acct : FirefoxAccount)
    (pairing_url : Url) (scopes : List String)
    (state_param code_verifier : String) (skf : ScopedKeysFlow) :
    Except FxaError (FirefoxAccount × Url) :=
  let url := acct.state.config.content_url_path "/pair/supp"
  if url.host ≠ pairing_url.host then .error .OriginMismatch
  else
    .ok (oauth_flow prims acct { url with fragment := pairing_url.fragment }
      scopes true state_param code_verifier skf)

/-- `FirefoxAccount::complete_oauth_flow` (lib.rs:337-395). Black boxes: the
code exchange result `exch` (`oauth_token_with_code`) and the JWE decryption
plus per-entry JSON parse `decrypt_keys` (`decrypt_keys_jwe` and serde).
Token destruction (lib.rs:375, 385) is best-effort and has no local effect.
The `Bool` reports whether the persist callback point was reached. -/
def complete_oauth_flow (acct : FirefoxAccount) (state : String)
    (exch : Except FxaError OauthTokenResponse)
    (decrypt_keys : ScopedKeysFlow → String →
      Except FxaError (List (String × ScopedKey))) :
    FirefoxAccount × Bool × Except FxaError Unit :=
  match alistLookup acct.flow_store state with
  | none => (acct, false, .error .UnknownOAuthState)
  | some oauth_flow_entry =>
      let acct := { acct with flow_store := alistRemove acct.flow_store state }
      match exch with
      | .error e => (acct, false, .error e)
      | .ok resp =>
          let keysStep : Except FxaError FirefoxAccount :=
            match resp.keys_jwe with
            | some jwe =>
                match oauth_flow_entry.scoped_keys_flow with
                | none =>
                    .error (.UnrecoverableServerError
                      "Got a JWE without sending a JWK.")
                | some flow =>
                    match decrypt_keys flow jwe with
                    | .error e => .error e
                    | .ok entries =>
                        .ok { acct with
                          state := { acct.state with
                            scoped_keys :=
                              entries.foldl
                                (fun m p => alistInsert m p.1 p.2)
                                acct.state.scoped_keys } }
            | none =>
                match oauth_flow_entry.scoped_keys_flow with
                | some _ => .error .TokenWithoutKeys
                | none => .ok acct
          match keysStep with
          | .error e => (acct, false, .error e)
          | .ok acct =>
              match resp.refresh_token with
              | none => (acct, false, .error .RefreshTokenNotPresent)
              | some refresh_token =>
                  let acct :=
                    { acct with
                        state := { acct.state with
                          refresh_token := some
                            { token := refresh_token
                              scopes := resp.scope.splitOn " " } } }
                  (acct, true, .ok ())

/-- `CommandData` (http_client.rs): the payload of one pending command. -/
structure CommandData where
  command : String
  sender : Option String
  payload : String
  deriving DecidableEq, Repr

/-- `PendingCommand` (http_client.rs). -/
structure PendingCommand where
  index : Nat
  data : CommandData
  deriving DecidableEq, Repr

/-- `PendingCommandsResponse` (http_client.rs): the high-water `index`
reported by the server and the pending messages. -/
structure PendingCommandsResponse where
  index : Nat
  messages : List PendingCommand
  deriving DecidableEq, Repr

/-- One tab of a `SendTabPayload`. -/
structure TabHistoryEntry where
  title : String
  url : String
  deriving DecidableEq, Repr

/-- `SendTabPayload` (commands/send_tab.rs). -/
structure SendTabPayload where
  entries : List TabHistoryEntry
  deriving DecidableEq, Repr

/-- `AccountEvent` (lib.rs:693-698); the sender is identified by device id. -/
inductive AccountEvent
  | TabReceived (sender : Option String) (payload : SendTabPayload)
  deriving DecidableEq, Repr

/-- `FirefoxAccount::poll_remote_commands` (lib.rs:507-522). Black boxes: the
answer `server` of the server to `pending_commands(refresh_token, start, None)` as
a function of the requested start index, and `handle` for `handle_commands`
(which performs network `get_devices` plus per-message decrypt and mutates no
account state, lib.rs:525-565). The `Bool` reports whether the persist
callback point was reached. -/
def poll_remote_commands (acct : FirefoxAccount)
    (server : Nat → Except FxaError PendingCommandsResponse)
    (handle : List PendingCommand → Except FxaError (List AccountEvent)) :
    FirefoxAccount × Bool × Except FxaError (List AccountEvent) :=
  let last_command_index := acct.state.last_handled_command.getD 0
  match acct.state.refresh_token with
  | none => (acct, false, .error .NoRefreshToken)
  | some _ =>
      match server (last_command_index + 1) with
      | .error e => (acct, false, .error e)
      | .ok pending_commands =>
          if pending_commands.messages.length = 0 then (acct, false, .ok [])
          else
            match handle pending_commands.messages with
            | .error e => (acct, false, .error e)
            | .ok account_events =>
                ({ acct with
                    state := { acct.state with
                      last_handled_command := some pending_commands.index } },
                 true, .ok account_events)

end FxA

namespace PushCrypto

/-- Black-box elliptic-curve primitives for the push `Key` codec
(`components/push/crypto/src/lib.rs`): whether `LocalKeyPairImpl::new`
succeeds on raw private-key bytes, and `pub_as_raw` on the resulting pair. -/
structure ECPrims where
  newOk : List Nat → Bool
  pubRaw : List Nat → Option (List Nat)

/-- `Key` (crypto lib.rs:29-34): the private keypair is observed only through
`to_raw`, so it is modelled by its raw bytes. -/
structure Key where
  privateRaw : List Nat
  public : List Nat
  auth : List Nat
  deriving DecidableEq, Repr

/-- Outcome of `Key::deserialize`, distinguishing Rust panics (out-of-bounds
indexing / slicing) from returned errors. -/
inductive KeyResult
  | ok (k : Key)
  | err (msg : String)
  | oobPanic
  deriving DecidableEq, Repr

/-- `Key::serialize` (crypto lib.rs:73-93):
`[version=1, auth_len as u8, auth..., priv_len as u8, priv...]`. -/
def Key.serialize (k : Key) : List Nat :=
  1 :: (k.auth.length % 256) :: (k.auth ++ (k.privateRaw.length % 256) :: k.privateRaw)

/-- `Key::deserialize` (crypto lib.rs:96-140). Each Rust index `raw[i]` and
slice `raw[a..b]` panics when out of bounds; those are the `oobPanic` cases,
placed exactly where the source performs the access. -/
def Key.deserialize (C : ECPrims) (raw : List Nat) : KeyResult :=
  match raw[0]? with
  | none => .oobPanic
  | some v =>
      if v ≠ 1 then .err "Unknown Key Serialization version"
      else
        match raw[1]? with
        | none => .oobPanic
        | some l =>
            if raw.length < 2 + l then .oobPanic
            else
              let auth := (raw.drop 2).take l
              match raw[2 + l]? with
              | none => .oobPanic
              | some l2 =>
                  if raw.length < 2 + l + 1 + l2 then .oobPanic
                  else
                    let priv := (raw.drop (2 + l + 1)).take l2
                    if C.newOk priv then
                      match C.pubRaw priv with
                      | some pubkey =>
                          .ok { privateRaw := priv, public := pubkey, auth := auth }
                      | none => .err "Could not dump public key"
                    else .err "Could not reinstate key"

/-- `SER_AUTH_LENGTH` (crypto lib.rs:23): `generate_key` draws a 16-byte auth
secret. -/
def SER_AUTH_LENGTH : Nat := 16

end PushCrypto

namespace FxA

/-- Decidable equality for `Except`, used to evaluate operation results on
concrete inputs. -/
instance {ε α : Type} [DecidableEq ε] [DecidableEq α] :
    DecidableEq (Except ε α) := fun a b =>
  match a, b with
  | .error e, .error f =>
      if h : e = f then .isTrue (by rw [h]) else
        .isFalse (by intro hc; cases hc; exact h rfl)
  | .ok x, .ok y =>
      if h : x = y then .isTrue (by rw [h]) else
        .isFalse (by intro hc; cases hc; exact h rfl)
  | .error _, .ok _ => .isFalse (by intro hc; cases hc)
  | .ok _, .error _ => .isFalse (by intro hc; cases hc)

/-- A demo configuration matching the tests of the repository. -/
def cfgDemo : Config :=
  { content_host := "accounts.firefox.com"
    client_id := "12345678"
    redirect_uri := "https://foo.bar" }

/-- A freshly created account (no refresh token, empty caches). -/
def acctDemo : FirefoxAccount := FirefoxAccount.with_config cfgDemo

/-- Claim C7 (amended): `get_access_token` rejects a scope containing a space
character (U+0020) with `MultipleScopesRequested`, before consulting the
cache or the network: the result is the same for every cache content and
every network answer, and the account is unchanged. Other whitespace
characters are not rejected by this check. -/
theorem get_access_token_space_rejected (acct : FirefoxAccount) (scope : String)
    (now_secs : Nat) (exch : Except FxaError OauthTokenResponse)
    (h : containsSpace scope = true) :
    get_access_token acct scope now_secs exch =
      (acct, .error .MultipleScopesRequested) := by
  simp [get_access_token, h]

/-- Witness for the C7 theorem at a concrete scope containing a space. -/
theorem get_access_token_space_rejected_witness :
    get_access_token acctDemo "a b" 0 (.error (.Network "down")) =
      (acctDemo, .error .MultipleScopesRequested) :=
  get_access_token_space_rejected acctDemo "a b" 0 (.error (.Network "down"))
    (by decide)

/-- Counterexample to C7 as stated: the scope `"a\tb"` contains a whitespace
character (TAB), yet `get_access_token` does not fail with
`MultipleScopesRequested`; on a fresh account it proceeds past the check and
fails with `NoCachedToken` instead, because the source only searches for the
one-character substring `" "`. -/
theorem get_access_token_space_claim_counterexample :
    "a\tb".data.contains (Char.ofNat 9) = true
    ∧ (Char.ofNat 9).isWhitespace = true
    ∧ get_access_token acctDemo "a\tb" 0 (.error (.Network "down")) =
        (acctDemo, .error (.NoCachedToken "a\tb")) := by
  refine ⟨by decide, by decide, ?_⟩
  decide

/-- Claim C3 (amended): a cached access token for the exact requested scope is
returned without any network call (the result does not depend on `exch` and
the account is unchanged) exactly when strictly more than
`OAUTH_MIN_TIME_LEFT = 60` seconds remain; when `expires_at - now ≤ 60` the
cached token is not returned and a fresh exchange is attempted
(`mint_access_token`). -/
theorem get_access_token_cache_freshness (acct : FirefoxAccount)
    (scope : String) (now_secs : Nat)
    (exch : Except FxaError OauthTokenResponse) (info : AccessTokenInfo)
    (hns : containsSpace scope = false)
    (hc : alistLookup acct.access_token_cache scope = some info) :
    (now_secs + OAUTH_MIN_TIME_LEFT < info.expires_at →
       get_access_token acct scope now_secs exch = (acct, .ok info))
    ∧ (info.expires_at ≤ now_secs + OAUTH_MIN_TIME_LEFT →
       get_access_token acct scope now_secs exch =
         mint_access_token acct scope now_secs exch) := by
  constructor
  · intro h
    simp [get_access_token, hns, hc, h]
  · intro h
    have hlt : ¬ (now_secs + OAUTH_MIN_TIME_LEFT < info.expires_at) := by omega
    simp [get_access_token, hns, hc, hlt]

/-- A cached token with 100 seconds of validity left at `now = 1000`. -/
def infoW3 : AccessTokenInfo :=
  { scope := "profile", token := "tok", key := none, expires_at := 1100 }

/-- An account holding `infoW3` in its access-token cache. -/
def acctW3 : FirefoxAccount :=
  { acctDemo with access_token_cache := [("profile", infoW3)] }

/-- Witness for the C3 theorem: with 100 s left the cached token is returned
even though the network is down. -/
theorem get_access_token_cache_freshness_witness :
    get_access_token acctW3 "profile" 1000 (.error (.Network "down")) =
      (acctW3, .ok infoW3) :=
  (get_access_token_cache_freshness acctW3 "profile" 1000
      (.error (.Network "down")) infoW3 (by decide) (by decide)).1 (by decide)

/-- A cached token with exactly 60 seconds of validity left at `now = 1000`. -/
def infoC3 : AccessTokenInfo :=
  { scope := "profile", token := "tok", key := none, expires_at := 1060 }

/-- An account holding `infoC3` in its access-token cache and no refresh
token. -/
def acctC3 : FirefoxAccount :=
  { acctDemo with access_token_cache := [("profile", infoC3)] }

/-- Counterexample to C3 as stated: at `now = 1000` the cached token with
`expires_at = 1060` satisfies `expires_at - now ≥ 60`, yet it is not
returned — the code requires `expires_at > now + 60` strictly, so it attempts
a fresh exchange, which here fails with `NoCachedToken`. -/
theorem get_access_token_cache_claim_counterexample :
    infoC3.expires_at - 1000 = 60
    ∧ alistLookup acctC3.access_token_cache "profile" = some infoC3
    ∧ get_access_token acctC3 "profile" 1000 (.error (.Network "down")) =
        (acctC3, .error (.NoCachedToken "profile")) := by
  refine ⟨by decide, by decide, ?_⟩
  decide

end FxA

namespace FxA

/-- Claim C9: when the server reports zero pending messages,
`poll_remote_commands` returns the empty event list, leaves the whole account
unchanged — in particular `last_handled_command`, even if the `index`
reported by the server is higher — and does not reach the persist-callback point. -/
theorem poll_remote_commands_empty (acct : FirefoxAccount) (rt : RefreshToken)
    (server : Nat → Except FxaError PendingCommandsResponse)
    (handle : List PendingCommand → Except FxaError (List AccountEvent))
    (resp : PendingCommandsResponse)
    (hrt : acct.state.refresh_token = some rt)
    (hsv : server (acct.state.last_handled_command.getD 0 + 1) = .ok resp)
    (hm : resp.messages = []) :
    poll_remote_commands acct server handle = (acct, false, .ok []) := by
  simp [poll_remote_commands, hrt, hsv, hm]

/-- An account with a refresh token and `last_handled_command = some 5`. -/
def acctPoll : FirefoxAccount :=
  { acctDemo with
      state := { acctDemo.state with
        refresh_token := some { token := "rt", scopes := ["profile"] }
        last_handled_command := some 5 } }

/-- Witness for the C9 theorem: a server answer with zero messages and a higher
index (100) leaves the account at `last_handled_command = some 5`. -/
theorem poll_remote_commands_empty_witness :
    poll_remote_commands acctPoll
        (fun _ => .ok { index := 100, messages := [] })
        (fun _ => .error (.Network "unused")) =
      (acctPoll, false, .ok []) :=
  poll_remote_commands_empty acctPoll { token := "rt", scopes := ["profile"] }
    (fun _ => .ok { index := 100, messages := [] })
    (fun _ => .error (.Network "unused"))
    { index := 100, messages := [] } rfl rfl rfl

/-- Claim C4 (amended): when `poll_remote_commands` successfully processes a
nonempty batch, the new `last_handled_command` equals the `index` field of
the server response (not `base + number of messages`); and `last_handled_command`
never decreases provided the `index` reported by the server is at least the
previous value — the code trusts the `index` of the server unconditionally, so
without that proviso a server reporting a smaller index makes it decrease. -/
theorem poll_remote_commands_index (acct : FirefoxAccount)
    (server : Nat → Except FxaError PendingCommandsResponse)
    (handle : List PendingCommand → Except FxaError (List AccountEvent))
    (hmono : ∀ resp,
      server (acct.state.last_handled_command.getD 0 + 1) = .ok resp →
      acct.state.last_handled_command.getD 0 ≤ resp.index) :
    (∀ rt resp events, acct.state.refresh_token = some rt →
      server (acct.state.last_handled_command.getD 0 + 1) = .ok resp →
      resp.messages ≠ [] → handle resp.messages = .ok events →
      (poll_remote_commands acct server handle).1.state.last_handled_command =
        some resp.index)
    ∧ acct.state.last_handled_command.getD 0 ≤
        (poll_remote_commands acct server handle).1.state.last_handled_command.getD 0 := by
  constructor
  · intro rt resp events hrt hsv hne hh
    simp [poll_remote_commands, hrt, hsv, hh, hne]
  · cases hrt : acct.state.refresh_token with
    | none => simp [poll_remote_commands, hrt]
    | some rt =>
        cases hsv : server (acct.state.last_handled_command.getD 0 + 1) with
        | error e => simp [poll_remote_commands, hrt, hsv]
        | ok resp =>
            by_cases hm : resp.messages.length = 0
            · simp [poll_remote_commands, hrt, hsv, hm]
            · cases hh : handle resp.messages with
              | error e => simp [poll_remote_commands, hrt, hsv, hm, hh]
              | ok events =>
                  simp [poll_remote_commands, hrt, hsv, hm, hh]
                  exact hmono resp hsv

/-- A demo pending send-tab command message. -/
def pcDemo : PendingCommand :=
  { index := 6
    data :=
      { command := "https://identity.mozilla.com/cmd/open-uri"
        sender := none
        payload := "p" } }

/-- A demo server response carrying `pcDemo` with high-water index `i`. -/
def respIdx (i : Nat) : PendingCommandsResponse :=
  { index := i, messages := [pcDemo] }

/-- Witness for the C4 theorem: one pending message, server index 7, previous
value 5: the new `last_handled_command` is `some 7` and did not decrease. -/
theorem poll_remote_commands_index_witness :
    (poll_remote_commands acctPoll (fun _ => .ok (respIdx 7))
        (fun _ => .ok [])).1.state.last_handled_command = some 7
    ∧ acctPoll.state.last_handled_command.getD 0 ≤
        (poll_remote_commands acctPoll (fun _ => .ok (respIdx 7))
          (fun _ => .ok [])).1.state.last_handled_command.getD 0 := by
  have h := poll_remote_commands_index acctPoll (fun _ => .ok (respIdx 7))
    (fun _ => .ok []) (by intro resp hr; cases hr; decide)
  exact ⟨h.1 { token := "rt", scopes := ["profile"] } (respIdx 7) []
    (by decide) rfl (by decide) rfl, h.2⟩

/-- Counterexample to C4 as stated: with `last_handled_command = some 5`, a
server response with `index = 0` and one pending message makes the call set
`last_handled_command = some 0`, strictly below its previous value — the
claimed unconditional monotonicity fails. -/
theorem poll_remote_commands_claim_counterexample :
    acctPoll.state.last_handled_command = some 5
    ∧ (poll_remote_commands acctPoll (fun _ => .ok (respIdx 0))
        (fun _ => .ok [])).1.state.last_handled_command = some 0
    ∧ (0 : Nat) < 5 := by
  refine ⟨rfl, ?_, by decide⟩
  decide

/-- Claim C2: `complete_oauth_flow` removes the flow entry for `state` exactly
once, no matter how the rest of the call goes (every exchange outcome and
every key-decryption outcome `dk`): the resulting flow store is always
`alistRemove` of the old one; an absent entry yields `UnknownOAuthState` with
no other state change; afterwards the entry is gone, so a repeated call with
the same `state` always fails with `UnknownOAuthState`. -/
theorem complete_oauth_flow_flow_store (acct : FirefoxAccount) (st : String)
    (exch : Except FxaError OauthTokenResponse)
    (dk : ScopedKeysFlow → String → Except FxaError (List (String × ScopedKey))) :
    (complete_oauth_flow acct st exch dk).1.flow_store =
        alistRemove acct.flow_store st
    ∧ (alistLookup acct.flow_store st = none →
        complete_oauth_flow acct st exch dk =
          (acct, false, .error .UnknownOAuthState))
    ∧ alistLookup (complete_oauth_flow acct st exch dk).1.flow_store st = none
    ∧ (complete_oauth_flow (complete_oauth_flow acct st exch dk).1 st exch dk).2 =
        (false, .error .UnknownOAuthState) := by
  have h1 : (complete_oauth_flow acct st exch dk).1.flow_store =
      alistRemove acct.flow_store st := by
    cases hl : alistLookup acct.flow_store st with
    | none =>
        simp [complete_oauth_flow, hl,
          alistRemove_of_lookup_none acct.flow_store st hl]
    | some flow =>
        simp only [complete_oauth_flow, hl]
        rcases exch with e | resp
        · rfl
        · rcases hk : resp.keys_jwe with _ | jwe
          · rcases hsf : flow.scoped_keys_flow with _ | sf
            · rcases hrf : resp.refresh_token with _ | rtok
              · simp [hk, hsf, hrf]
              · simp [hk, hsf, hrf]
            · simp [hk, hsf]
          · rcases hsf : flow.scoped_keys_flow with _ | sf
            · simp [hk, hsf]
            · rcases hdk : dk sf jwe with e | entries
              · simp [hk, hsf, hdk]
              · rcases hrf : resp.refresh_token with _ | rtok
                · simp [hk, hsf, hdk, hrf]
                · simp [hk, hsf, hdk, hrf]
  have h3 : alistLookup (complete_oauth_flow acct st exch dk).1.flow_store st =
      none := by
    rw [h1]
    exact alistLookup_remove_self acct.flow_store st
  have hnone : ∀ b : FirefoxAccount, alistLookup b.flow_store st = none →
      complete_oauth_flow b st exch dk = (b, false, .error .UnknownOAuthState) := by
    intro b hb
    simp [complete_oauth_flow, hb]
  refine ⟨h1, hnone acct, h3, ?_⟩
  rw [hnone _ h3]

/-- A demo ephemeral scoped-keys keypair. -/
def skfDemo : ScopedKeysFlow := { jwk_json := "jwk" }

/-- A flow entry without a scoped-keys keypair. -/
def flowNoKeys : OAuthFlow := { scoped_keys_flow := none, code_verifier := "cv" }

/-- A flow entry carrying a scoped-keys keypair. -/
def flowWithKeys : OAuthFlow :=
  { scoped_keys_flow := some skfDemo, code_verifier := "cv" }

/-- An account whose flow store holds `flowNoKeys` under `"st"`. -/
def acctFlowN : FirefoxAccount :=
  { acctDemo with flow_store := [("st", flowNoKeys)] }

/-- An account whose flow store holds `flowWithKeys` under `"st"`. -/
def acctFlowK : FirefoxAccount :=
  { acctDemo with flow_store := [("st", flowWithKeys)] }

/-- A token response that carries a `keys_jwe`. -/
def respJwe : OauthTokenResponse :=
  { access_token := "at"
    refresh_token := some "rt"
    scope := "profile"
    expires_in := 3600
    keys_jwe := some "jwe" }

/-- A token response without `keys_jwe`. -/
def respNoJwe : OauthTokenResponse :=
  { respJwe with keys_jwe := none }

/-- A demo JWE decryption black box. -/
def dkDemo : ScopedKeysFlow → String →
    Except FxaError (List (String × ScopedKey)) :=
  fun _ _ => .ok []

/-- Witness for the C2 theorem: an unknown state fails with `UnknownOAuthState`
and changes nothing, and a present entry is removed and stays removed, so the
repeated call fails. -/
theorem complete_oauth_flow_flow_store_witness :
    complete_oauth_flow acctDemo "missing" (.ok respNoJwe) dkDemo =
        (acctDemo, false, .error .UnknownOAuthState)
    ∧ (complete_oauth_flow acctFlowK "st" (.ok respNoJwe) dkDemo).1.flow_store =
        alistRemove acctFlowK.flow_store "st"
    ∧ alistLookup
        (complete_oauth_flow acctFlowK "st" (.ok respNoJwe) dkDemo).1.flow_store
        "st" = none
    ∧ (complete_oauth_flow
        (complete_oauth_flow acctFlowK "st" (.ok respNoJwe) dkDemo).1 "st"
        (.ok respNoJwe) dkDemo).2 = (false, .error .UnknownOAuthState) := by
  have h := complete_oauth_flow_flow_store acctFlowK "st" (.ok respNoJwe) dkDemo
  have h0 := complete_oauth_flow_flow_store acctDemo "missing" (.ok respNoJwe)
    dkDemo
  exact ⟨h0.2.1 rfl, h.1, h.2.2.1, h.2.2.2⟩

/-- Claim C6: in `complete_oauth_flow`, a `keys_jwe` in the response with no
stored scoped-keys-flow keypair fails with
`UnrecoverableServerError "Got a JWE without sending a JWK."` and leaves
`scoped_keys` and the refresh token unchanged (only the flow entry is
consumed); a stored keypair with no `keys_jwe` in the response fails with
`TokenWithoutKeys`, likewise leaving the rest of the state unchanged. -/
theorem complete_oauth_flow_keys_jwe (acct : FirefoxAccount) (st : String)
    (dk : ScopedKeysFlow → String → Except FxaError (List (String × ScopedKey)))
    (flow : OAuthFlow) (resp : OauthTokenResponse)
    (hl : alistLookup acct.flow_store st = some flow) :
    (∀ jwe, resp.keys_jwe = some jwe → flow.scoped_keys_flow = none →
       complete_oauth_flow acct st (.ok resp) dk =
         ({ acct with flow_store := alistRemove acct.flow_store st }, false,
          .error (.UnrecoverableServerError "Got a JWE without sending a JWK.")))
    ∧ (resp.keys_jwe = none → ∀ sf, flow.scoped_keys_flow = some sf →
       complete_oauth_flow acct st (.ok resp) dk =
         ({ acct with flow_store := alistRemove acct.flow_store st }, false,
          .error .TokenWithoutKeys)) := by
  constructor
  · intro jwe hk hsf
    simp [complete_oauth_flow, hl, hk, hsf]
  · intro hk sf hsf
    simp [complete_oauth_flow, hl, hk, hsf]

/-- Witness for the C6 theorem at concrete accounts: a JWE without a stored JWK
on `acctFlowN`, and a stored JWK without a JWE on `acctFlowK`. -/
theorem complete_oauth_flow_keys_jwe_witness :
    complete_oauth_flow acctFlowN "st" (.ok respJwe) dkDemo =
        ({ acctFlowN with flow_store := alistRemove acctFlowN.flow_store "st" },
         false,
         .error (.UnrecoverableServerError "Got a JWE without sending a JWK."))
    ∧ complete_oauth_flow acctFlowK "st" (.ok respNoJwe) dkDemo =
        ({ acctFlowK with flow_store := alistRemove acctFlowK.flow_store "st" },
         false, .error .TokenWithoutKeys) :=
  ⟨(complete_oauth_flow_keys_jwe acctFlowN "st" dkDemo flowNoKeys respJwe
      (by decide)).1 "jwe" rfl rfl,
   (complete_oauth_flow_keys_jwe acctFlowK "st" dkDemo flowWithKeys respNoJwe
      (by decide)).2 rfl skfDemo rfl⟩

theorem alistLookup_append_left_none {α : Type} (l1 l2 : List (String × α))
    (k : String) (h : alistLookup l1 k = none) :
    alistLookup (l1 ++ l2) k = alistLookup l2 k := by
  induction l1 with
  | nil => rfl
  | cons p t ih =>
      by_cases hp : p.1 = k
      · simp [alistLookup, hp] at h
      · simp [alistLookup, hp] at h ⊢
        exact ih h

/-- The PKCE consistency property of a flow-starting call: the flow store
holds an entry under the emitted `state`, and the `code_challenge` of the URL
is the url-safe no-padding base64 of the SHA-256 of the `code_verifier` of
that entry, with `code_challenge_method = S256`. -/
def pkce_consistent (prims : CryptoPrims) (acct : FirefoxAccount) (u : Url)
    (st : String) : Prop :=
  ∃ f, alistLookup acct.flow_store st = some f
    ∧ u.queryLookup "code_challenge" =
        some (prims.b64url (prims.sha256 (strBytes f.code_verifier)))
    ∧ u.queryLookup "code_challenge_method" = some "S256"

theorem oauth_flow_pkce_consistent (prims : CryptoPrims)
    (acct : FirefoxAccount) (url : Url) (scopes : List String)
    (wants_keys : Bool) (st cv : String) (skf : ScopedKeysFlow)
    (h1 : alistLookup url.query "code_challenge" = none)
    (h2 : alistLookup url.query "code_challenge_method" = none) :
    pkce_consistent prims
      (oauth_flow prims acct url scopes wants_keys st cv skf).1
      (oauth_flow prims acct url scopes wants_keys st cv skf).2 st := by
  cases wants_keys
  · refine ⟨{ scoped_keys_flow := none, code_verifier := cv }, ?_, ?_, ?_⟩
    · simp [oauth_flow, alistLookup_insert_self]
    · simp only [oauth_flow, Url.append_pair, Url.queryLookup,
        List.append_assoc, List.singleton_append, List.cons_append,
        List.nil_append]
      rw [alistLookup_append_left_none _ _ _ h1]
      simp [alistLookup]
    · simp only [oauth_flow, Url.append_pair, Url.queryLookup,
        List.append_assoc, List.singleton_append, List.cons_append,
        List.nil_append]
      rw [alistLookup_append_left_none _ _ _ h2]
      simp [alistLookup]
  · refine ⟨{ scoped_keys_flow := some skf, code_verifier := cv }, ?_, ?_, ?_⟩
    · simp [oauth_flow, alistLookup_insert_self]
    · simp only [oauth_flow, Url.append_pair, Url.queryLookup,
        List.append_assoc, List.singleton_append, List.cons_append,
        List.nil_append]
      rw [alistLookup_append_left_none _ _ _ h1]
      simp [alistLookup]
    · simp only [oauth_flow, Url.append_pair, Url.queryLookup,
        List.append_assoc, List.singleton_append, List.cons_append,
        List.nil_append]
      rw [alistLookup_append_left_none _ _ _ h2]
      simp [alistLookup]

/-- Claim C1: every flow started through `begin_oauth_flow`, and every one
started through `begin_pairing_flow` when it succeeds, emits a
`code_challenge` equal to the url-safe no-padding base64 of the SHA-256 of
the `code_verifier` stored in the flow store under the emitted `state`, and
emits `code_challenge_method = S256`. -/
theorem begin_flows_pkce (prims : CryptoPrims) (acct : FirefoxAccount)
    (scopes : List String) (wants_keys : Bool) (st cv : String)
    (skf : ScopedKeysFlow) (purl : Url) :
    pkce_consistent prims
      (begin_oauth_flow prims acct scopes wants_keys st cv skf).1
      (begin_oauth_flow prims acct scopes wants_keys st cv skf).2 st
    ∧ (∀ r, begin_pairing_flow prims acct purl scopes st cv skf = .ok r →
        pkce_consistent prims r.1 r.2 st) := by
  constructor
  · exact oauth_flow_pkce_consistent prims acct _ _ wants_keys st cv skf
      (by simp [Config.authorization_endpoint, Config.content_url_path,
        Url.append_pair, alistLookup])
      (by simp [Config.authorization_endpoint, Config.content_url_path,
        Url.append_pair, alistLookup])
  · intro r h
    simp only [begin_pairing_flow] at h
    split at h
    · cases h
    · rw [Except.ok.injEq] at h
      rw [← h]
      exact oauth_flow_pkce_consistent prims acct _ scopes true st cv skf
        (by simp [Config.content_url_path, alistLookup])
        (by simp [Config.content_url_path, alistLookup])

/-- Trivial concrete crypto primitives for evaluating the URL builders. -/
def prmsDemo : CryptoPrims :=
  { sha256 := fun l => l, b64url := fun _ => "challenge" }

/-- A pairing URL on the demo content host. -/
def purlDemo : Url :=
  { host := "accounts.firefox.com"
    path := "/pair"
    query := []
    fragment := some "channel_id=658db7fe98b249a5897b884f98fb31b7" }

/-- The result of the inner `oauth_flow` call of the demo pairing flow. -/
def pairDemo : FirefoxAccount × Url :=
  oauth_flow prmsDemo acctDemo
    { acctDemo.state.config.content_url_path "/pair/supp" with
      fragment := purlDemo.fragment } ["profile"] true "stp" "cvv" skfDemo

/-- Witness for the C1 theorem on a concrete account, for both flow starters. -/
theorem begin_flows_pkce_witness :
    pkce_consistent prmsDemo
      (begin_oauth_flow prmsDemo acctDemo ["profile"] false "stp" "cvv" skfDemo).1
      (begin_oauth_flow prmsDemo acctDemo ["profile"] false "stp" "cvv" skfDemo).2
      "stp"
    ∧ pkce_consistent prmsDemo pairDemo.1 pairDemo.2 "stp" := by
  have h := begin_flows_pkce prmsDemo acctDemo ["profile"] false "stp" "cvv"
    skfDemo purlDemo
  exact ⟨h.1, h.2 pairDemo (by decide)⟩

/-- Claim C5: the `scope` query parameter emitted by `begin_oauth_flow` is
the space-separated join of `effective_scopes`; with a refresh token present
its members are exactly the union of the requested and the held scope sets
(duplicates removed, order irrelevant), and without one it is exactly the
requested list. -/
theorem begin_oauth_flow_scope_union (prims : CryptoPrims)
    (acct : FirefoxAccount) (scopes : List String) (wants_keys : Bool)
    (st cv : String) (skf : ScopedKeysFlow) :
    (begin_oauth_flow prims acct scopes wants_keys st cv skf).2.queryLookup
        "scope" =
      some (String.intercalate " "
        (effective_scopes acct.state.refresh_token scopes))
    ∧ (∀ rt, acct.state.refresh_token = some rt →
        ∀ s, s ∈ effective_scopes acct.state.refresh_token scopes ↔
          (s ∈ scopes ∨ s ∈ rt.scopes))
    ∧ (acct.state.refresh_token = none →
        effective_scopes acct.state.refresh_token scopes = scopes) := by
  refine ⟨?_, ?_, ?_⟩
  · cases wants_keys <;>
      simp [begin_oauth_flow, oauth_flow, Config.authorization_endpoint,
        Config.content_url_path, Url.append_pair, Url.queryLookup, alistLookup]
  · intro rt hrt s
    simp [effective_scopes, hrt, List.mem_dedup, List.mem_append]
  · intro h
    simp [effective_scopes, h]

/-- A demo refresh token holding the `profile` and `devices` scopes. -/
def rtDemo : RefreshToken := { token := "rtok", scopes := ["profile", "devices"] }

/-- An account holding `rtDemo`. -/
def acctRT : FirefoxAccount :=
  { acctDemo with
      state := { acctDemo.state with refresh_token := some rtDemo } }

/-- Witness for the C5 theorem: requesting `oldsync` while holding
`profile devices` emits the union, and `devices` is a member of the emitted
set because the refresh token holds it. -/
theorem begin_oauth_flow_scope_union_witness :
    (begin_oauth_flow prmsDemo acctRT ["oldsync"] false "stp" "cvv"
        skfDemo).2.queryLookup "scope" =
      some (String.intercalate " "
        (effective_scopes acctRT.state.refresh_token ["oldsync"]))
    ∧ ("devices" ∈ effective_scopes acctRT.state.refresh_token ["oldsync"] ↔
        ("devices" ∈ ["oldsync"] ∨ "devices" ∈ rtDemo.scopes)) := by
  have h := begin_oauth_flow_scope_union prmsDemo acctRT ["oldsync"] false
    "stp" "cvv" skfDemo
  exact ⟨h.1, h.2.1 rtDemo rfl "devices"⟩

end FxA

namespace PushCrypto

theorem Key.deserialize_shape (C : ECPrims) (auth : List Nat) (l2 : Nat)
    (rest : List Nat) :
    Key.deserialize C (1 :: auth.length :: (auth ++ l2 :: rest)) =
      if rest.length < l2 then KeyResult.oobPanic
      else if C.newOk (rest.take l2) then
        match C.pubRaw (rest.take l2) with
        | some pubkey =>
            KeyResult.ok
              { privateRaw := rest.take l2, public := pubkey, auth := auth }
        | none => KeyResult.err "Could not dump public key"
      else KeyResult.err "Could not reinstate key" := by
  have hg0 : ((1 : Nat) :: auth.length :: (auth ++ l2 :: rest))[0]? =
      some 1 := rfl
  have hg1 : ((1 : Nat) :: auth.length :: (auth ++ l2 :: rest))[1]? =
      some auth.length := by simp
  have hg2 : ((1 : Nat) :: auth.length :: (auth ++ l2 :: rest))[2 + auth.length]? =
      some l2 := by
    rw [show (2 : Nat) + auth.length = auth.length + 1 + 1 from by omega]
    simp only [List.getElem?_cons_succ]
    rw [List.getElem?_append_right (Nat.le_refl _)]
    simp
  have hc1 : ¬ (((1 : Nat) :: auth.length :: (auth ++ l2 :: rest)).length <
      2 + auth.length) := by
    simp
    omega
  have hc2 : (((1 : Nat) :: auth.length :: (auth ++ l2 :: rest)).length <
      2 + auth.length + 1 + l2) ↔ rest.length < l2 := by
    simp
    omega
  have htake : (((1 : Nat) :: auth.length :: (auth ++ l2 :: rest)).drop 2).take
      auth.length = auth := by
    have hd : ((1 : Nat) :: auth.length :: (auth ++ l2 :: rest)).drop 2 =
        auth ++ l2 :: rest := rfl
    rw [hd, List.take_left]
  have hdrop : ((1 : Nat) :: auth.length :: (auth ++ l2 :: rest)).drop
      (2 + auth.length + 1) = rest := by
    have hsplit : (1 : Nat) :: auth.length :: (auth ++ l2 :: rest) =
        ((1 : Nat) :: auth.length :: (auth ++ [l2])) ++ rest := by simp
    rw [hsplit]
    exact List.drop_left' (by simp; omega)
  simp only [Key.deserialize, hg0, hg1, hg2, htake, hdrop, hc2]
  rw [if_neg hc1]
  simp

/-- Claim C8: for every key whose auth secret is 16 bytes
(`SER_AUTH_LENGTH`, as drawn by `generate_key`), whose raw private key fits
in one length byte, and whose keypair round-trips through the EC black box
(`LocalKeyPairImpl::new` succeeds and `pub_as_raw` reproduces the stored
public bytes, as holds for keys produced by `generate_key`),
`Key::deserialize (Key::serialize k)` succeeds and returns a key with the
same private, public and auth bytes. -/
theorem key_serialize_roundtrip (C : ECPrims) (k : Key)
    (hauth : k.auth.length = SER_AUTH_LENGTH)
    (hpriv : k.privateRaw.length ≤ 255)
    (hnew : C.newOk k.privateRaw = true)
    (hpub : C.pubRaw k.privateRaw = some k.public) :
    Key.deserialize C (Key.serialize k) = .ok k := by
  have ha : k.auth.length % 256 = k.auth.length :=
    Nat.mod_eq_of_lt (by rw [hauth]; decide)
  have hp : k.privateRaw.length % 256 = k.privateRaw.length :=
    Nat.mod_eq_of_lt (by omega)
  have hs : Key.serialize k =
      1 :: k.auth.length :: (k.auth ++ k.privateRaw.length :: k.privateRaw) := by
    simp [Key.serialize, ha, hp]
  rw [hs, Key.deserialize_shape]
  rw [if_neg (by omega)]
  simp [List.take_length, hnew, hpub]

/-- A trivial EC black box: every private key is accepted and its public key
equals its own bytes. -/
def primsK : ECPrims := { newOk := fun _ => true, pubRaw := fun l => some l }

/-- A demo key with a 16-byte auth secret and a 2-byte private key, whose
public bytes are `pubRaw` of `primsK` applied to its private bytes. -/
def keyDemo : Key :=
  { privateRaw := [7, 7], public := [7, 7], auth := List.replicate 16 0 }

/-- Witness for the C8 theorem at the concrete key `keyDemo`. -/
theorem key_serialize_roundtrip_witness :
    Key.deserialize primsK (Key.serialize keyDemo) = .ok keyDemo :=
  key_serialize_roundtrip primsK keyDemo (by decide) (by decide) rfl rfl

/-- Claim C10: `Key::deserialize` returns the
`"Unknown Key Serialization version"` error for every non-empty input whose
first byte is not 1, without reading any further byte (the result is the
same for every tail); but it panics with an out-of-bounds access on the
empty vector, on any input whose declared auth segment extends past the end
of the buffer, and on any input whose declared private-key segment extends
past the end of the buffer. -/
theorem key_deserialize_malformed (C : ECPrims) :
    (∀ b rest, b ≠ 1 →
      Key.deserialize C (b :: rest) = .err "Unknown Key Serialization version")
    ∧ Key.deserialize C [] = .oobPanic
    ∧ (∀ l rest, rest.length < l →
        Key.deserialize C (1 :: l :: rest) = .oobPanic)
    ∧ (∀ auth l2 rest, rest.length < l2 →
        Key.deserialize C (1 :: auth.length :: (auth ++ l2 :: rest)) =
          .oobPanic) := by
  refine ⟨?_, rfl, ?_, ?_⟩
  · intro b rest hb
    simp [Key.deserialize, hb]
  · intro l rest h
    simp [Key.deserialize]
    intro hle
    exact absurd hle (by omega)
  · intro auth l2 rest h
    rw [Key.deserialize_shape, if_pos h]

/-- Witness for the C10 theorem: version byte 2 is rejected as an error, while
`[]`, `[1, 5]` (auth segment past the end) and `[1, 0, 3]` (private-key
segment past the end) panic. -/
theorem key_deserialize_malformed_witness :
    Key.deserialize primsK [2] = .err "Unknown Key Serialization version"
    ∧ Key.deserialize primsK [] = .oobPanic
    ∧ Key.deserialize primsK [1, 5] = .oobPanic
    ∧ Key.deserialize primsK [1, 0, 3] = .oobPanic := by
  have h := key_deserialize_malformed primsK
  exact ⟨h.1 2 [] (by decide), h.2.1, h.2.2.1 5 [] (by decide),
    h.2.2.2 [] 3 [] (by decide)⟩

end PushCrypto
